import Mathlib

/-!
# Verification of the WebRTC stream read path (`p2p/transport/webrtc/stream_read.go`)

This file gives a shallow embedding of `webRTCStreamReader.Read` and
`webRTCStreamReader.CloseRead` and proves properties about them.

Modelling decisions:
* Bytes are `Nat`; byte buffers are `List Nat`.
* The Frame Source (`state.Reader.ReadMsg`) is modelled as a script: a list of
  `Except Err Frame` values consumed one per receive.  Receiving from an
  exhausted script means the real call would block forever; the model returns
  `none` for the whole `Read` in that case.
* Time is a fixed `now : Nat` for the duration of a `Read` call; the deadline
  cell is an `Option Nat` (`none` = unset), and `readDeadline.Before(time.Now())`
  becomes `d < now`.
* The external collaborators (owning stream, stream state handler) are visible
  to this component only through `isClosed`, `AllowRead`, `closeErr.Get`,
  `processIncomingFlag`, `Reset`, `stateHandler.CloseRead` and `close`.  Their
  observable answers are fields of `StreamState`; `processIncomingFlag` is an
  arbitrary state transformer parameter `pf`, since its effect is outside this
  component's control.
* Each iteration of `Read`'s loop is split into `preRecvStep` (everything up
  to and including the `read > 0 || read == len(b)` check, lines 45-81) and
  the receive handling (lines 83-113); the loop itself is `Read`, structurally
  recursive on the frame script since every non-terminal iteration consumes
  one frame.
-/

namespace LibP2PWebRTC

/-- Error values flowing through the read path.  `eof` is `io.EOF`,
`errClosedPipe` is `io.ErrClosedPipe`, `errDeadlineExceeded` is
`os.ErrDeadlineExceeded`.  `closeReadWrap e` is the `fmt.Errorf("could not
close stream for reading: %w", e)` wrapper produced by `CloseRead`.
`closeCause n` and `other n` are abstract stored close causes and other
transport errors. -/
inductive Err where
  | eof
  | errClosedPipe
  | errDeadlineExceeded
  | closeReadWrap (e : Err)
  | closeCause (n : Nat)
  | other (n : Nat)
deriving DecidableEq

/-- One protocol message (`pb.Message`): optional payload bytes
(`msg.Message`) and optional control flag (`msg.Flag`). -/
structure Frame where
  message : Option (List Nat)
  flag : Option Nat
deriving DecidableEq

/-- The owning stream's state as observable from the read path:
`closed` is what `r.stream.isClosed()` answers, `allowRead` is what
`r.stream.stateHandler.AllowRead()` answers, and `closeErr` is the stored
stream-level close cause (`r.stream.closeErr.Get()`). -/
structure StreamState where
  closed : Bool
  allowRead : Bool
  closeErr : Option Err
deriving DecidableEq

/-- Model of `r.stream.processIncomingFlag`: it delegates flag-driven state changes to the
owning stream; its effect on the observable stream state is an arbitrary
function. -/
abbrev ProcFlag := StreamState → Nat → StreamState

/-- Modelled from the spec: the Owning Stream's `reset()` (`r.stream.Reset()`,
not part of this source file) performs a hard abort of both directions,
leaving the stream fully closed so that every subsequent operation observes
`isClosed() = true`. -/
def resetStream (s : StreamState) : StreamState :=
  { s with closed := true }

deriving instance DecidableEq for Except

/-- The result of one `Read(b)` call: `out` is the data copied into `b`
(so `n = out.length`), `err` the returned error, and `stream`, `buffer`,
`frames` the stream state, unread buffer, and remaining frame script after
the call. -/
structure ReadOutcome where
  out : List Nat
  err : Option Err
  stream : StreamState
  buffer : List Nat
  frames : List (Except Err Frame)
deriving DecidableEq

/-- Lines 105-113 of `Read`'s critical section: after a successful receive,
append the payload to the buffer iff reading is still permitted and the
frame carries a payload, then hand any control flag to
`processIncomingFlag`.  Returns the new stream state and buffer. -/
def handleFrame (pf : ProcFlag) (s : StreamState) (buf : List Nat)
    (msg : Frame) : StreamState × List Nat :=
  let buf2 := if s.allowRead = true ∧ msg.message.isSome = true
              then buf ++ msg.message.getD [] else buf
  let s2 := match msg.flag with
    | some f => pf s f
    | none => s
  (s2, buf2)

/-- Whether the read deadline has already elapsed:
`hasReadDeadline && readDeadline.Before(time.Now())`. -/
def deadlineExpired (deadline : Option Nat) (now : Nat) : Bool :=
  match deadline with
  | some d => decide (d < now)
  | none => false

/-- Outcome of the part of a loop iteration that precedes the blocking
receive: either the call is over (`ret`: data, error, stream state, buffer —
the frame script is untouched on these paths), or the loop must receive a
frame (`recv`). -/
inductive PreRecv where
  | ret (out : List Nat) (err : Option Err) (s : StreamState) (buf : List Nat)
  | recv
deriving DecidableEq

/-- Lines 45-81 of `Read`: the closed check, the deadline check, the copy
out of the buffer, the end-of-stream check, and the finished check.
`blen = len(b)`; `out` plays the role of the copied prefix, so `read =
out.length`. -/
def preRecvStep (now blen : Nat) (deadline : Option Nat) (s : StreamState)
    (buf : List Nat) : PreRecv :=
  if s.closed = true then
    -- `if r.stream.isClosed() { return 0, io.ErrClosedPipe }`
    .ret [] (some .errClosedPipe) s buf
  else if deadlineExpired deadline now = true then
    -- deadline elapsed: the close cause is only logged;
    -- `return 0, os.ErrDeadlineExceeded`
    .ret [] (some .errDeadlineExceeded) s buf
  else
    -- `read = copy(b, state.Buffer); state.Buffer = state.Buffer[read:]`
    let out := buf.take blen
    let buf1 := buf.drop blen
    let read := out.length
    if buf1 = [] ∧ s.allowRead = false then
      -- `remaining == 0 && !AllowRead()`: return closeErr if set, else io.EOF
      .ret out (some (s.closeErr.getD .eof)) s buf1
    else if 0 < read ∨ read = blen then
      -- `if read > 0 || read == len(b) { finished = true; return nil }`
      .ret out none s buf1
    else
      .recv

/-- Lines 85-102 of `Read`: handling of a failed `ReadMsg`.  `read` is 0 on
every path that reaches the receive, and the buffer is empty there, but the
returned fields follow the code (`return read, readErr` with the error
rewritten by the classification). -/
def recvErr (blen : Nat) (s : StreamState) (buf : List Nat)
    (rest : List (Except Err Frame)) (e : Err) : ReadOutcome :=
  if e = .eof then
    -- remote went away without a FIN: `r.stream.Reset(); return io.ErrClosedPipe`
    ⟨buf.take blen, some .errClosedPipe, resetStream s, buf.drop blen, rest⟩
  else if e = .errDeadlineExceeded then
    -- frame source deadline expiry: the stored close cause wins if present
    ⟨buf.take blen, some (s.closeErr.getD .errDeadlineExceeded), s, buf.drop blen, rest⟩
  else
    -- any other error: propagate unchanged
    ⟨buf.take blen, some e, s, buf.drop blen, rest⟩

/-- Model of `webRTCStreamReader.Read(b)`, with `blen = len(b)`.  The loop runs until
a terminal outcome; each non-terminal iteration consumes one scripted frame,
so the recursion is structural on the frame script.  `none` means the model
would block (the script is exhausted at a blocking receive). -/
def Read (pf : ProcFlag) (now blen : Nat) (deadline : Option Nat) :
    List (Except Err Frame) → StreamState → List Nat → Option ReadOutcome
  | [], s, buf =>
    match preRecvStep now blen deadline s buf with
    | .ret out err s2 buf2 => some ⟨out, err, s2, buf2, []⟩
    | .recv => none
  | f :: rest, s, buf =>
    match preRecvStep now blen deadline s buf with
    | .ret out err s2 buf2 => some ⟨out, err, s2, buf2, f :: rest⟩
    | .recv =>
      match f with
      | .error e => some (recvErr blen s buf rest e)
      | .ok msg =>
        let r1 := handleFrame pf s (buf.drop blen) msg
        Read pf now blen deadline rest r1.1 r1.2

/-- Run a sequence of `Read` calls, one per destination length in `blens`,
threading the stream state, buffer, and frame script; collects each call's
returned bytes.  `none` if any call would block. -/
def runReads (pf : ProcFlag) (now : Nat) (deadline : Option Nat) :
    List Nat → List (Except Err Frame) → StreamState → List Nat →
    Option (List (List Nat) × List (Except Err Frame) × StreamState × List Nat)
  | [], frames, s, buf => some ([], frames, s, buf)
  | blen :: blens, frames, s, buf =>
    match Read pf now blen deadline frames s buf with
    | none => none
    | some o =>
      match runReads pf now deadline blens o.frames o.stream o.buffer with
      | none => none
      | some (outs, fin) => some (o.out :: outs, fin)

/-- A frame script consisting only of payload-bearing frames with no flags. -/
def payloadFrames (ps : List (List Nat)) : List (Except Err Frame) :=
  ps.map fun p => .ok ⟨some p, none⟩

/-- State relevant to `CloseRead`: the observable stream state, whether the
`sync.Once` latch has fired, how many times the STOP_SENDING write was
invoked, and whether the local read-closed transition was applied. -/
structure CloseState where
  stream : StreamState
  onceDone : Bool
  sends : Nat
  readClosedApplied : Bool
deriving DecidableEq

/-- Model of `webRTCStreamReader.CloseRead()`.  `sendErr` is the outcome the writer's
`WriteMsg(STOP_SENDING)` would produce on this call; `nowFullyClosed` —
modelled from the spec: `stateHandler.CloseRead()` (not part of this source
file) performs the local read-closed transition and reports whether the whole
stream is now terminal (`== stateClosed`), in which case
`r.stream.close(false, true)` performs a graceful teardown leaving the stream
fully closed. -/
def closeRead (sendErr : Option Err) (nowFullyClosed : Bool)
    (c : CloseState) : Option Err × CloseState :=
  if c.stream.closed = true then
    (none, c)
  else if c.onceDone = true then
    -- `closeOnce.Do` is a no-op; `err` stays nil
    (none, c)
  else
    match sendErr with
    | some e =>
      -- send failed: wrap, skip the state transition; the latch is consumed
      (some (.closeReadWrap e), { c with onceDone := true, sends := c.sends + 1 })
    | none =>
      let s2 : StreamState :=
        { closed := c.stream.closed || nowFullyClosed, allowRead := false,
          closeErr := c.stream.closeErr }
      (none, { stream := s2, onceDone := true, sends := c.sends + 1,
               readClosedApplied := true })

/-- Run a sequence of `CloseRead` calls; each element of the script gives
that call's send outcome and whether the read-closed transition would make
the stream terminal. -/
def runCloseReads : List (Option Err × Bool) → CloseState →
    List (Option Err) × CloseState
  | [], c => ([], c)
  | (se, fc) :: rest, c =>
    let r := closeRead se fc c
    let rr := runCloseReads rest r.2
    (r.1 :: rr.1, rr.2)

/-! ### Unfolding and inversion lemmas -/

theorem Read_nil (pf : ProcFlag) (now blen : Nat) (deadline : Option Nat)
    (s : StreamState) (buf : List Nat) :
    Read pf now blen deadline [] s buf
      = (match preRecvStep now blen deadline s buf with
         | .ret out err s2 buf2 => some ⟨out, err, s2, buf2, []⟩
         | .recv => none) := rfl

theorem Read_cons (pf : ProcFlag) (now blen : Nat) (deadline : Option Nat)
    (f : Except Err Frame) (rest : List (Except Err Frame))
    (s : StreamState) (buf : List Nat) :
    Read pf now blen deadline (f :: rest) s buf
      = (match preRecvStep now blen deadline s buf with
         | .ret out err s2 buf2 => some ⟨out, err, s2, buf2, f :: rest⟩
         | .recv =>
           match f with
           | .error e => some (recvErr blen s buf rest e)
           | .ok msg =>
             Read pf now blen deadline rest
               (handleFrame pf s (buf.drop blen) msg).1
               (handleFrame pf s (buf.drop blen) msg).2) := rfl

theorem preRecv_closed (now blen : Nat) (deadline : Option Nat)
    (s : StreamState) (buf : List Nat) (hc : s.closed = true) :
    preRecvStep now blen deadline s buf = .ret [] (some .errClosedPipe) s buf := by
  rw [preRecvStep, if_pos hc]

theorem preRecv_deadline (now blen : Nat) (deadline : Option Nat)
    (s : StreamState) (buf : List Nat) (hc : s.closed = false)
    (hd : deadlineExpired deadline now = true) :
    preRecvStep now blen deadline s buf = .ret [] (some .errDeadlineExceeded) s buf := by
  rw [preRecvStep, if_neg (by simp [hc]), if_pos hd]

theorem preRecv_eos (now blen : Nat) (deadline : Option Nat)
    (s : StreamState) (buf : List Nat) (hc : s.closed = false)
    (hd : deadlineExpired deadline now = false)
    (ha : s.allowRead = false) (hb : buf.drop blen = []) :
    preRecvStep now blen deadline s buf
      = .ret (buf.take blen) (some (s.closeErr.getD .eof)) s [] := by
  rw [preRecvStep, if_neg (by simp [hc]), if_neg (by simp [hd])]
  simp only [hb]
  rw [if_pos ⟨trivial, ha⟩]

theorem preRecv_finished (now blen : Nat) (deadline : Option Nat)
    (s : StreamState) (buf : List Nat) (hc : s.closed = false)
    (hd : deadlineExpired deadline now = false)
    (h1 : ¬(buf.drop blen = [] ∧ s.allowRead = false))
    (h2 : 0 < (buf.take blen).length ∨ (buf.take blen).length = blen) :
    preRecvStep now blen deadline s buf
      = .ret (buf.take blen) none s (buf.drop blen) := by
  rw [preRecvStep, if_neg (by simp [hc]), if_neg (by simp [hd]), if_neg h1, if_pos h2]

theorem preRecv_recv_gen (now blen : Nat) (deadline : Option Nat)
    (s : StreamState) (buf : List Nat) (hc : s.closed = false)
    (hd : deadlineExpired deadline now = false)
    (h1 : ¬(buf.drop blen = [] ∧ s.allowRead = false))
    (h2 : ¬(0 < (buf.take blen).length ∨ (buf.take blen).length = blen)) :
    preRecvStep now blen deadline s buf = .recv := by
  rw [preRecvStep, if_neg (by simp [hc]), if_neg (by simp [hd]), if_neg h1, if_neg h2]

theorem preRecv_goes_recv (now blen : Nat) (deadline : Option Nat)
    (s : StreamState) (hc : s.closed = false)
    (hd : deadlineExpired deadline now = false)
    (ha : s.allowRead = true) (hblen : 0 < blen) :
    preRecvStep now blen deadline s [] = .recv := by
  exact preRecv_recv_gen now blen deadline s [] hc hd (by simp [ha])
    (by simp [Nat.ne_of_lt hblen])

/-- Inversion for the `recv` outcome: the receive is reached only with the
stream open, the deadline unexpired, an empty buffer, a non-empty
destination, and reading still permitted. -/
theorem preRecv_recv_inv {now blen : Nat} {deadline : Option Nat}
    {s : StreamState} {buf : List Nat}
    (h : preRecvStep now blen deadline s buf = .recv) :
    s.closed = false ∧ deadlineExpired deadline now = false
      ∧ buf = [] ∧ 0 < blen ∧ s.allowRead = true := by
  by_cases hc : s.closed = true
  · rw [preRecv_closed now blen deadline s buf hc] at h
    exact PreRecv.noConfusion h
  replace hc : s.closed = false := by simpa using hc
  by_cases hd : deadlineExpired deadline now = true
  · rw [preRecv_deadline now blen deadline s buf hc hd] at h
    exact PreRecv.noConfusion h
  replace hd : deadlineExpired deadline now = false := by simpa using hd
  by_cases h1 : buf.drop blen = [] ∧ s.allowRead = false
  · rw [preRecv_eos now blen deadline s buf hc hd h1.2 h1.1] at h
    exact PreRecv.noConfusion h
  by_cases h2 : 0 < (buf.take blen).length ∨ (buf.take blen).length = blen
  · rw [preRecv_finished now blen deadline s buf hc hd h1 h2] at h
    exact PreRecv.noConfusion h
  push_neg at h2
  have hread : (buf.take blen).length = 0 := Nat.le_zero.mp h2.1
  have hblen : blen ≠ 0 := by
    intro h0
    exact h2.2 (by simp [hread, h0])
  have hbuf : buf = [] := by
    rcases List.take_eq_nil_iff.mp (List.eq_nil_of_length_eq_zero hread) with h' | h'
    · exact absurd h' hblen
    · exact h'
  have hdrop : buf.drop blen = [] := by simp [hbuf]
  have ha : s.allowRead = true := by
    rcases Bool.eq_false_or_eq_true s.allowRead with ha | ha
    · exact ha
    · exact absurd ⟨hdrop, ha⟩ h1
  exact ⟨hc, hd, hbuf, Nat.pos_of_ne_zero hblen, ha⟩

/-- Inversion for the `ret` outcome: the stream state is untouched, and the
result comes from the closed check, the deadline check, the end-of-stream
check, or the finished check. -/
theorem preRecv_ret_inv {now blen : Nat} {deadline : Option Nat}
    {s s2 : StreamState} {buf buf2 out : List Nat} {err : Option Err}
    (h : preRecvStep now blen deadline s buf = .ret out err s2 buf2) :
    s2 = s ∧
      ((out = [] ∧ buf2 = buf
          ∧ (err = some .errClosedPipe ∨ err = some .errDeadlineExceeded))
       ∨ (out = buf.take blen ∧ buf2 = buf.drop blen ∧ buf2 = []
          ∧ s.allowRead = false ∧ err = some (s.closeErr.getD .eof))
       ∨ (out = buf.take blen ∧ buf2 = buf.drop blen ∧ err = none)) := by
  by_cases hc : s.closed = true
  · rw [preRecv_closed now blen deadline s buf hc] at h
    cases h
    exact ⟨rfl, Or.inl ⟨rfl, rfl, Or.inl rfl⟩⟩
  replace hc : s.closed = false := by simpa using hc
  by_cases hd : deadlineExpired deadline now = true
  · rw [preRecv_deadline now blen deadline s buf hc hd] at h
    cases h
    exact ⟨rfl, Or.inl ⟨rfl, rfl, Or.inr rfl⟩⟩
  replace hd : deadlineExpired deadline now = false := by simpa using hd
  by_cases h1 : buf.drop blen = [] ∧ s.allowRead = false
  · rw [preRecv_eos now blen deadline s buf hc hd h1.2 h1.1] at h
    cases h
    exact ⟨rfl, Or.inr (Or.inl ⟨rfl, h1.1.symm, rfl, h1.2, rfl⟩)⟩
  by_cases h2 : 0 < (buf.take blen).length ∨ (buf.take blen).length = blen
  · rw [preRecv_finished now blen deadline s buf hc hd h1 h2] at h
    cases h
    exact ⟨rfl, Or.inr (Or.inr ⟨rfl, rfl, rfl⟩)⟩
  rw [preRecv_recv_gen now blen deadline s buf hc hd h1 h2] at h
  exact PreRecv.noConfusion h

theorem Read_ret (pf : ProcFlag) (now blen : Nat) (deadline : Option Nat)
    (frames : List (Except Err Frame)) (s : StreamState) (buf : List Nat)
    (out : List Nat) (err : Option Err) (s2 : StreamState) (buf2 : List Nat)
    (hp : preRecvStep now blen deadline s buf = .ret out err s2 buf2) :
    Read pf now blen deadline frames s buf = some ⟨out, err, s2, buf2, frames⟩ := by
  cases frames <;> simp only [Read_nil, Read_cons, hp]

theorem Read_blocked (pf : ProcFlag) (now blen : Nat) (deadline : Option Nat)
    (s : StreamState) (buf : List Nat)
    (hp : preRecvStep now blen deadline s buf = .recv) :
    Read pf now blen deadline [] s buf = none := by
  simp only [Read_nil, hp]

theorem Read_recv_error (pf : ProcFlag) (now blen : Nat) (deadline : Option Nat)
    (e : Err) (rest : List (Except Err Frame)) (s : StreamState) (buf : List Nat)
    (hp : preRecvStep now blen deadline s buf = .recv) :
    Read pf now blen deadline (.error e :: rest) s buf
      = some (recvErr blen s buf rest e) := by
  simp only [Read_cons, hp]

theorem Read_recv_ok (pf : ProcFlag) (now blen : Nat) (deadline : Option Nat)
    (msg : Frame) (rest : List (Except Err Frame)) (s : StreamState) (buf : List Nat)
    (hp : preRecvStep now blen deadline s buf = .recv) :
    Read pf now blen deadline (.ok msg :: rest) s buf
      = Read pf now blen deadline rest
          (handleFrame pf s (buf.drop blen) msg).1
          (handleFrame pf s (buf.drop blen) msg).2 := by
  simp only [Read_cons, hp]

theorem recvErr_out (blen : Nat) (s : StreamState) (buf : List Nat)
    (rest : List (Except Err Frame)) (e : Err) :
    (recvErr blen s buf rest e).out = buf.take blen := by
  rw [recvErr]
  split_ifs <;> rfl

theorem runReads_nil (pf : ProcFlag) (now : Nat) (deadline : Option Nat)
    (frames : List (Except Err Frame)) (s : StreamState) (buf : List Nat) :
    runReads pf now deadline [] frames s buf = some ([], frames, s, buf) := rfl

theorem runReads_cons (pf : ProcFlag) (now : Nat) (deadline : Option Nat)
    (blen : Nat) (blens : List Nat)
    (frames : List (Except Err Frame)) (s : StreamState) (buf : List Nat) :
    runReads pf now deadline (blen :: blens) frames s buf
      = (match Read pf now blen deadline frames s buf with
         | none => none
         | some o =>
           match runReads pf now deadline blens o.frames o.stream o.buffer with
           | none => none
           | some (outs, fin) => some (o.out :: outs, fin)) := rfl

theorem closeRead_noop (se : Option Err) (fc : Bool) (c : CloseState)
    (h : c.stream.closed = true ∨ c.onceDone = true) :
    closeRead se fc c = (none, c) := by
  rcases h with h | h
  · unfold closeRead
    rw [if_pos h]
  · unfold closeRead
    by_cases hc : c.stream.closed = true
    · rw [if_pos hc]
    · rw [if_neg hc, if_pos h]

theorem closeRead_sendFail (e : Err) (fc : Bool) (c : CloseState)
    (hc : c.stream.closed = false) (hnd : c.onceDone = false) :
    closeRead (some e) fc c
      = (some (.closeReadWrap e), { c with onceDone := true, sends := c.sends + 1 }) := by
  unfold closeRead
  rw [if_neg (by simp [hc]), if_neg (by simp [hnd])]

theorem closeRead_sendOk (fc : Bool) (c : CloseState)
    (hc : c.stream.closed = false) (hnd : c.onceDone = false) :
    closeRead none fc c
      = (none, { stream := { closed := c.stream.closed || fc, allowRead := false,
                             closeErr := c.stream.closeErr },
                 onceDone := true, sends := c.sends + 1,
                 readClosedApplied := true }) := by
  unfold closeRead
  rw [if_neg (by simp [hc]), if_neg (by simp [hnd])]

/-- One `closeRead` call either leaves the latch and send count untouched, or
(only from the unlatched state) consumes the latch and performs exactly one
send attempt. -/
theorem closeRead_latch (se : Option Err) (fc : Bool) (c : CloseState) :
    ((closeRead se fc c).2.sends = c.sends ∧ (closeRead se fc c).2.onceDone = c.onceDone)
    ∨ (c.onceDone = false ∧ (closeRead se fc c).2.sends = c.sends + 1
        ∧ (closeRead se fc c).2.onceDone = true) := by
  by_cases hc : c.stream.closed = true
  · rw [closeRead_noop se fc c (Or.inl hc)]
    exact Or.inl ⟨rfl, rfl⟩
  by_cases hnd : c.onceDone = true
  · rw [closeRead_noop se fc c (Or.inr hnd)]
    exact Or.inl ⟨rfl, rfl⟩
  replace hc : c.stream.closed = false := by simpa using hc
  replace hnd : c.onceDone = false := by simpa using hnd
  cases se with
  | some e => rw [closeRead_sendFail e fc c hc hnd]; exact Or.inr ⟨hnd, rfl, rfl⟩
  | none => rw [closeRead_sendOk fc c hc hnd]; exact Or.inr ⟨hnd, rfl, rfl⟩

theorem runCloseReads_cons (se : Option Err) (fc : Bool)
    (rest : List (Option Err × Bool)) (c : CloseState) :
    (runCloseReads ((se, fc) :: rest) c).2
      = (runCloseReads rest (closeRead se fc c).2).2 := rfl

/-- Across any sequence of `closeRead` calls, either the latch and send count
are unchanged, or the latch was consumed exactly once with exactly one send
attempt. -/
theorem runCloseReads_latch (script : List (Option Err × Bool)) (c : CloseState) :
    ((runCloseReads script c).2.sends = c.sends
        ∧ (runCloseReads script c).2.onceDone = c.onceDone)
    ∨ (c.onceDone = false ∧ (runCloseReads script c).2.sends = c.sends + 1
        ∧ (runCloseReads script c).2.onceDone = true) := by
  induction script generalizing c with
  | nil => exact Or.inl ⟨rfl, rfl⟩
  | cons hd rest ih =>
    obtain ⟨se, fc⟩ := hd
    rw [runCloseReads_cons]
    rcases closeRead_latch se fc c with ⟨hs, ho⟩ | ⟨h0, hs, ho⟩
    · rcases ih (closeRead se fc c).2 with ⟨hs', ho'⟩ | ⟨h0', hs', ho'⟩
      · exact Or.inl ⟨hs' ▸ hs, ho' ▸ ho⟩
      · exact Or.inr ⟨ho ▸ h0', by omega, ho'⟩
    · rcases ih (closeRead se fc c).2 with ⟨hs', ho'⟩ | ⟨h0', hs', ho'⟩
      · exact Or.inr ⟨h0, by omega, ho' ▸ ho⟩
      · rw [ho] at h0'
        exact Bool.noConfusion h0'

/-! ### Length bound for `Read` -/

/-- Every successful `Read` returns at most `len(b)` bytes. -/
theorem Read_out_length_le (frames : List (Except Err Frame)) (pf : ProcFlag)
    (now blen : Nat) (deadline : Option Nat) (s : StreamState) (buf : List Nat)
    (o : ReadOutcome) (h : Read pf now blen deadline frames s buf = some o) :
    o.out.length ≤ blen := by
  induction frames generalizing s buf with
  | nil =>
    rw [Read_nil] at h
    cases hp : preRecvStep now blen deadline s buf with
    | recv => rw [hp] at h; exact Option.noConfusion h
    | ret out err s2 buf2 =>
      rw [hp] at h
      cases h
      obtain ⟨-, hcase⟩ := preRecv_ret_inv hp
      rcases hcase with ⟨h1, -, -⟩ | ⟨h1, -, -, -, -⟩ | ⟨h1, -, -⟩ <;>
        simp [h1, List.length_take]
  | cons f rest ih =>
    rw [Read_cons] at h
    cases hp : preRecvStep now blen deadline s buf with
    | ret out err s2 buf2 =>
      rw [hp] at h
      cases h
      obtain ⟨-, hcase⟩ := preRecv_ret_inv hp
      rcases hcase with ⟨h1, -, -⟩ | ⟨h1, -, -, -, -⟩ | ⟨h1, -, -⟩ <;>
        simp [h1, List.length_take]
    | recv =>
      rw [hp] at h
      cases f with
      | error e =>
        cases h
        simp [recvErr_out, List.length_take]
      | ok msg =>
        exact ih _ _ h

/-! ### Claim C1 -/

/-- C1 (counterexample): with the read deadline already elapsed and a
stream-level close cause stored, `Read` returns DeadlineExceeded — not the
stored close cause — so the close-cause-wins part of the claim fails on this
path. -/
theorem C1_counterexample :
    Read (fun s _ => s) 5 4 (some 1) [] ⟨false, true, some (.closeCause 9)⟩ [1]
      = some ⟨[], some .errDeadlineExceeded, ⟨false, true, some (.closeCause 9)⟩, [1], []⟩
    ∧ Err.errDeadlineExceeded ≠ Err.closeCause 9 :=
  ⟨by decide, by decide⟩

/-- C1 (amended): if a read deadline is set and has already elapsed at the
top of an iteration (stream not closed), `Read` returns 0 bytes and
DeadlineExceeded regardless of any stored close cause (the cause is only
logged), and the Frame Source is not invoked: stream state, buffer and frame
script are all left untouched. -/
theorem C1_deadline_elapsed (pf : ProcFlag) (now blen : Nat) (deadline : Option Nat)
    (frames : List (Except Err Frame)) (s : StreamState) (buf : List Nat)
    (hc : s.closed = false) (hd : deadlineExpired deadline now = true) :
    Read pf now blen deadline frames s buf
      = some ⟨[], some .errDeadlineExceeded, s, buf, frames⟩ :=
  Read_ret pf now blen deadline frames s buf _ _ _ _
    (preRecv_deadline now blen deadline s buf hc hd)

/-- C1 witness: concrete instance of `C1_deadline_elapsed`. -/
theorem C1_witness :
    Read (fun s _ => s) 5 4 (some 1) [Except.error Err.eof]
        ⟨false, true, some (.closeCause 9)⟩ [1, 2]
      = some ⟨[], some .errDeadlineExceeded, ⟨false, true, some (.closeCause 9)⟩,
              [1, 2], [Except.error Err.eof]⟩ :=
  C1_deadline_elapsed (fun s _ => s) 5 4 (some 1) [Except.error Err.eof]
    ⟨false, true, some (.closeCause 9)⟩ [1, 2] rfl rfl

/-! ### Claim C3 -/

/-- C3 (counterexample): a `Read` that copies three bytes out of the buffer
can still return an error in the same call (end-of-stream reached with
reading no longer permitted), refuting "returns the copied count with no
error". -/
theorem C3_counterexample :
    Read (fun s _ => s) 0 5 none [] ⟨false, false, none⟩ [1, 2, 3]
      = some ⟨[1, 2, 3], some .eof, ⟨false, false, none⟩, [], []⟩
    ∧ 0 < ([1, 2, 3] : List Nat).length
    ∧ some Err.eof ≠ (none : Option Err) :=
  ⟨by decide, by decide, by decide⟩

/-- C3 (amended): `Read` never returns more than `len(dest)` bytes; and if
at least one byte is available to copy or `len(dest)` is zero, the call
finishes in that iteration, returning the copied prefix without a blocking
receive (frame script untouched) — with no error, except that when the copy
drains the buffer while reading is no longer permitted the stored close
cause (or EOF) is returned together with the copied count. -/
theorem C3_partial_read (pf : ProcFlag) (now blen : Nat) (deadline : Option Nat)
    (frames : List (Except Err Frame)) (s : StreamState) (buf : List Nat) :
    (∀ o, Read pf now blen deadline frames s buf = some o → o.out.length ≤ blen)
    ∧ (s.closed = false → deadlineExpired deadline now = false →
        blen = 0 ∨ buf ≠ [] →
        Read pf now blen deadline frames s buf
          = some ⟨buf.take blen,
                  if buf.drop blen = [] ∧ s.allowRead = false
                  then some (s.closeErr.getD .eof) else none,
                  s, buf.drop blen, frames⟩) := by
  constructor
  · intro o h
    exact Read_out_length_le frames pf now blen deadline s buf o h
  · intro hc hd hbl
    by_cases h1 : buf.drop blen = [] ∧ s.allowRead = false
    · rw [if_pos h1,
        Read_ret pf now blen deadline frames s buf _ _ _ _
          (preRecv_eos now blen deadline s buf hc hd h1.2 h1.1), h1.1]
    · rw [if_neg h1]
      have h2 : 0 < (buf.take blen).length ∨ (buf.take blen).length = blen := by
        rcases hbl with h0 | hne
        · right; simp [h0]
        · rcases Nat.eq_zero_or_pos blen with hb0 | hbp
          · right; simp [hb0]
          · left
            have hlen : 0 < buf.length := List.length_pos.mpr hne
            rw [List.length_take]
            exact lt_min_iff.mpr ⟨hbp, hlen⟩
      exact Read_ret pf now blen deadline frames s buf _ _ _ _
        (preRecv_finished now blen deadline s buf hc hd h1 h2)

/-- C3 witness: concrete instance of `C3_partial_read`. -/
theorem C3_witness :
    ([9, 8] : List Nat).length ≤ 2
    ∧ Read (fun s _ => s) 0 2 none [] ⟨false, true, none⟩ [9, 8, 7]
        = some ⟨[9, 8], none, ⟨false, true, none⟩, [7], []⟩ := by
  constructor
  · exact (C3_partial_read (fun s _ => s) 0 2 none [] ⟨false, true, none⟩ [9, 8, 7]).1
      ⟨[9, 8], none, ⟨false, true, none⟩, [7], []⟩ (by decide)
  · have h := (C3_partial_read (fun s _ => s) 0 2 none [] ⟨false, true, none⟩ [9, 8, 7]).2
      rfl rfl (Or.inr (by decide))
    rw [h]
    decide

/-! ### Claim C4 -/

/-- C4 (counterexample): when the copy itself drains the buffer and reading
is no longer permitted, `Read` returns the copied bytes together with EOF —
not zero bytes — refuting the "(zero bytes, EOF)" part of the claim. -/
theorem C4_counterexample :
    Read (fun s _ => s) 0 4 none [] ⟨false, false, none⟩ [7, 8]
      = some ⟨[7, 8], some .eof, ⟨false, false, none⟩, [], []⟩
    ∧ ([7, 8] : List Nat).length ≠ 0 :=
  ⟨by decide, by decide⟩

/-- C4 (amended): when after copying the buffer is empty and local reading
is no longer permitted, `Read` returns the copied count together with the
stored close cause if one exists, otherwise EOF; this is zero bytes exactly
when the buffer was already empty, and every further `Read` call in that
state (any destination size) returns zero bytes with the same error, leaving
all state untouched. -/
theorem C4_end_of_stream (pf : ProcFlag) (now blen : Nat) (deadline : Option Nat)
    (frames : List (Except Err Frame)) (s : StreamState) (buf : List Nat)
    (hc : s.closed = false) (hd : deadlineExpired deadline now = false)
    (ha : s.allowRead = false) (hb : buf.drop blen = []) :
    Read pf now blen deadline frames s buf
      = some ⟨buf.take blen, some (s.closeErr.getD .eof), s, [], frames⟩
    ∧ ∀ blen2 : Nat, Read pf now blen2 deadline frames s []
        = some ⟨[], some (s.closeErr.getD .eof), s, [], frames⟩ := by
  constructor
  · exact Read_ret pf now blen deadline frames s buf _ _ _ _
      (preRecv_eos now blen deadline s buf hc hd ha hb)
  · intro blen2
    have h := Read_ret pf now blen2 deadline frames s [] _ _ _ _
      (preRecv_eos now blen2 deadline s [] hc hd ha (by simp))
    simpa using h

/-- C4 witness: concrete instance of `C4_end_of_stream`, with a stored close
cause that wins over plain EOF. -/
theorem C4_witness :
    Read (fun s _ => s) 0 3 none [] ⟨false, false, some (.closeCause 2)⟩ [4]
      = some ⟨[4], some (.closeCause 2), ⟨false, false, some (.closeCause 2)⟩, [], []⟩
    ∧ Read (fun s _ => s) 0 7 none [] ⟨false, false, some (.closeCause 2)⟩ []
      = some ⟨[], some (.closeCause 2), ⟨false, false, some (.closeCause 2)⟩, [], []⟩ := by
  have h := C4_end_of_stream (fun s _ => s) 0 3 none [] ⟨false, false, some (.closeCause 2)⟩
    [4] rfl rfl rfl (by decide)
  refine ⟨by rw [h.1]; decide, by rw [h.2 7]; decide⟩

/-! ### Claim C10 -/

/-- C10 (counterexample): `Read` can deliver bytes and report an error in
the same call: with one buffered byte, a destination of length 2, reading
not permitted and a stored close cause, it returns 1 byte together with the
close cause. -/
theorem C10_counterexample :
    Read (fun s _ => s) 0 2 none [] ⟨false, false, some (.closeCause 3)⟩ [5]
      = some ⟨[5], some (.closeCause 3), ⟨false, false, some (.closeCause 3)⟩, [], []⟩
    ∧ ([5] : List Nat).length ≠ 0
    ∧ some (Err.closeCause 3) ≠ (none : Option Err) :=
  ⟨by decide, by decide, by decide⟩

/-- C10 (amended): whenever `Read` returns both a non-nil error and a
non-zero byte count, it did so through the drained-and-read-closed
end-of-stream check: the remaining buffer is empty, reading is no longer
permitted, and the error is the stored close cause (or EOF).  On every other
error path the returned count is 0. -/
theorem C10_bytes_with_error (frames : List (Except Err Frame)) (pf : ProcFlag)
    (now blen : Nat) (deadline : Option Nat) (s : StreamState) (buf : List Nat)
    (o : ReadOutcome) (e : Err)
    (h : Read pf now blen deadline frames s buf = some o)
    (he : o.err = some e) (hne : o.out ≠ []) :
    o.buffer = [] ∧ o.stream.allowRead = false
      ∧ e = o.stream.closeErr.getD .eof := by
  induction frames generalizing s buf with
  | nil =>
    rw [Read_nil] at h
    cases hp : preRecvStep now blen deadline s buf with
    | recv => rw [hp] at h; exact Option.noConfusion h
    | ret out err s2 buf2 =>
      rw [hp] at h
      cases h
      obtain ⟨hs, hcase⟩ := preRecv_ret_inv hp
      subst hs
      dsimp only at he hne ⊢
      rcases hcase with ⟨h1, -, -⟩ | ⟨-, -, hb2, ha, herr⟩ | ⟨-, -, herr⟩
      · exact absurd h1 hne
      · rw [herr] at he
        exact ⟨hb2, ha, (Option.some.inj he).symm⟩
      · rw [herr] at he
        exact Option.noConfusion he
  | cons f rest ih =>
    rw [Read_cons] at h
    cases hp : preRecvStep now blen deadline s buf with
    | ret out err s2 buf2 =>
      rw [hp] at h
      cases h
      obtain ⟨hs, hcase⟩ := preRecv_ret_inv hp
      subst hs
      dsimp only at he hne ⊢
      rcases hcase with ⟨h1, -, -⟩ | ⟨-, -, hb2, ha, herr⟩ | ⟨-, -, herr⟩
      · exact absurd h1 hne
      · rw [herr] at he
        exact ⟨hb2, ha, (Option.some.inj he).symm⟩
      · rw [herr] at he
        exact Option.noConfusion he
    | recv =>
      rw [hp] at h
      cases f with
      | error e2 =>
        cases h
        obtain ⟨-, -, hbuf, -, -⟩ := preRecv_recv_inv hp
        rw [recvErr_out] at hne
        rw [hbuf] at hne
        simp at hne
      | ok msg =>
        exact ih _ _ h

/-- C10 witness: concrete instance of `C10_bytes_with_error` at the
one-buffered-byte input. -/
theorem C10_witness :
    ([] : List Nat) = []
    ∧ (⟨false, false, some (Err.closeCause 3)⟩ : StreamState).allowRead = false
    ∧ Err.closeCause 3
        = (⟨false, false, some (Err.closeCause 3)⟩ : StreamState).closeErr.getD .eof :=
  C10_bytes_with_error [] (fun s _ => s) 0 2 none ⟨false, false, some (.closeCause 3)⟩ [5]
    ⟨[5], some (.closeCause 3), ⟨false, false, some (.closeCause 3)⟩, [], []⟩
    (Err.closeCause 3) (by decide) (by decide) (by decide)

/-! ### Claim C5 -/

/-- C5 (confirmed): if the Frame Source reports end-of-transmission
(`io.EOF`), `Read` hard-resets the stream and fails with StreamClosed
(`io.ErrClosedPipe`), returning zero bytes; and in the reset state every
subsequent `Read` also returns StreamClosed with zero bytes. -/
theorem C5_abrupt_termination (pf : ProcFlag) (now blen : Nat) (deadline : Option Nat)
    (frames : List (Except Err Frame)) (s : StreamState)
    (hc : s.closed = false) (hd : deadlineExpired deadline now = false)
    (ha : s.allowRead = true) (hblen : 0 < blen) :
    Read pf now blen deadline (.error .eof :: frames) s []
      = some ⟨[], some .errClosedPipe, resetStream s, [], frames⟩
    ∧ ∀ (blen2 : Nat) (frames2 : List (Except Err Frame)) (buf2 : List Nat),
        Read pf now blen2 deadline frames2 (resetStream s) buf2
          = some ⟨[], some .errClosedPipe, resetStream s, buf2, frames2⟩ := by
  constructor
  · rw [Read_recv_error pf now blen deadline .eof frames s []
      (preRecv_goes_recv now blen deadline s hc hd ha hblen)]
    simp [recvErr]
  · intro blen2 frames2 buf2
    exact Read_ret pf now blen2 deadline frames2 (resetStream s) buf2 _ _ _ _
      (preRecv_closed now blen2 deadline (resetStream s) buf2 rfl)

/-- C5 witness: concrete instance of `C5_abrupt_termination`. -/
theorem C5_witness :
    Read (fun s _ => s) 0 4 none [Except.error Err.eof, Except.error (Err.other 1)]
        ⟨false, true, none⟩ []
      = some ⟨[], some .errClosedPipe, ⟨true, true, none⟩, [], [Except.error (Err.other 1)]⟩
    ∧ Read (fun s _ => s) 0 4 none [Except.error (Err.other 1)] ⟨true, true, none⟩ []
      = some ⟨[], some .errClosedPipe, ⟨true, true, none⟩, [], [Except.error (Err.other 1)]⟩ := by
  have h := C5_abrupt_termination (fun s _ => s) 0 4 none [Except.error (Err.other 1)]
    ⟨false, true, none⟩ rfl rfl rfl (by decide)
  exact ⟨h.1, h.2 4 [Except.error (Err.other 1)] []⟩

/-! ### Claim C6 -/

/-- C6 (confirmed): if the Frame Source's receive fails with its own
deadline-expiry error, `Read` returns the stored close cause when present
and otherwise DeadlineExceeded; every other receive error (neither EOF nor
deadline expiry) is propagated unchanged. -/
theorem C6_source_errors (pf : ProcFlag) (now blen : Nat) (deadline : Option Nat)
    (frames : List (Except Err Frame)) (s : StreamState)
    (hc : s.closed = false) (hd : deadlineExpired deadline now = false)
    (ha : s.allowRead = true) (hblen : 0 < blen) :
    Read pf now blen deadline (.error .errDeadlineExceeded :: frames) s []
      = some ⟨[], some (s.closeErr.getD .errDeadlineExceeded), s, [], frames⟩
    ∧ ∀ e : Err, e ≠ .eof → e ≠ .errDeadlineExceeded →
        Read pf now blen deadline (.error e :: frames) s []
          = some ⟨[], some e, s, [], frames⟩ := by
  constructor
  · rw [Read_recv_error pf now blen deadline .errDeadlineExceeded frames s []
      (preRecv_goes_recv now blen deadline s hc hd ha hblen)]
    simp [recvErr]
  · intro e he1 he2
    rw [Read_recv_error pf now blen deadline e frames s []
      (preRecv_goes_recv now blen deadline s hc hd ha hblen)]
    simp [recvErr, he1, he2]

/-- C6 witness: concrete instances of `C6_source_errors` with a stored close
cause (winning over DeadlineExceeded) and with an unrelated transport error
(passed through). -/
theorem C6_witness :
    Read (fun s _ => s) 0 4 none [Except.error Err.errDeadlineExceeded]
        ⟨false, true, some (.closeCause 3)⟩ []
      = some ⟨[], some (.closeCause 3), ⟨false, true, some (.closeCause 3)⟩, [], []⟩
    ∧ Read (fun s _ => s) 0 4 none [Except.error (Err.other 4)]
        ⟨false, true, some (.closeCause 3)⟩ []
      = some ⟨[], some (.other 4), ⟨false, true, some (.closeCause 3)⟩, [], []⟩ := by
  have h := C6_source_errors (fun s _ => s) 0 4 none []
    ⟨false, true, some (.closeCause 3)⟩ rfl rfl rfl (by decide)
  exact ⟨h.1, h.2 (.other 4) (by decide) (by decide)⟩

/-! ### Claim C7 -/

/-- C7 (confirmed): for a successfully received frame, the payload is
appended to the buffer iff local reading is still permitted and the frame
carries a payload (otherwise the buffer is unchanged — the bytes are
discarded), and a control flag carried by the same frame is handed to the
owning stream's flag-processing logic in either case. -/
theorem C7_flag_and_payload (pf : ProcFlag) (s : StreamState) (buf : List Nat)
    (msg : Frame) :
    ((s.allowRead = true ∧ msg.message.isSome = true) →
        (handleFrame pf s buf msg).2 = buf ++ msg.message.getD [])
    ∧ (¬(s.allowRead = true ∧ msg.message.isSome = true) →
        (handleFrame pf s buf msg).2 = buf)
    ∧ (∀ f, msg.flag = some f → (handleFrame pf s buf msg).1 = pf s f)
    ∧ (msg.flag = none → (handleFrame pf s buf msg).1 = s) := by
  refine ⟨?_, ?_, ?_, ?_⟩
  · intro hcond
    simp [handleFrame, hcond.1, hcond.2]
  · intro hcond
    simp only [handleFrame]
    rw [if_neg hcond]
  · intro f hf
    simp [handleFrame, hf]
  · intro hf
    simp [handleFrame, hf]

/-- C7 witness: concrete instances of `C7_flag_and_payload`: a frame whose
payload is kept and whose flag is processed (here the flag-processing
disallows further reads), and a frame received after reading was disallowed,
whose payload is discarded. -/
theorem C7_witness :
    (handleFrame (fun s _ => ⟨s.closed, false, s.closeErr⟩)
        ⟨false, true, none⟩ [1] ⟨some [2], some 0⟩).2 = [1, 2]
    ∧ (handleFrame (fun s _ => ⟨s.closed, false, s.closeErr⟩)
        ⟨false, true, none⟩ [1] ⟨some [2], some 0⟩).1 = ⟨false, false, none⟩
    ∧ (handleFrame (fun s _ => ⟨s.closed, false, s.closeErr⟩)
        ⟨false, false, none⟩ [1] ⟨some [2], none⟩).2 = [1] := by
  have h1 := C7_flag_and_payload (fun s _ => ⟨s.closed, false, s.closeErr⟩)
    ⟨false, true, none⟩ [1] ⟨some [2], some 0⟩
  have h2 := C7_flag_and_payload (fun s _ => ⟨s.closed, false, s.closeErr⟩)
    ⟨false, false, none⟩ [1] ⟨some [2], none⟩
  exact ⟨h1.1 (by decide), h1.2.2.1 0 rfl, h2.2.1 (by decide)⟩

/-! ### Claim C2 -/

/-- Conservation across one `Read` call over a payload-only script: no error,
the stream state is untouched, the remaining script is still payload-only,
and returned bytes + buffered bytes + undelivered payloads together are
exactly the old buffer followed by the old payloads. -/
theorem Read_payload_conserve (ps : List (List Nat)) (pf : ProcFlag)
    (now blen : Nat) (deadline : Option Nat) (s : StreamState) (buf : List Nat)
    (o : ReadOutcome)
    (hc : s.closed = false) (ha : s.allowRead = true)
    (hd : deadlineExpired deadline now = false)
    (h : Read pf now blen deadline (payloadFrames ps) s buf = some o) :
    o.err = none ∧ o.stream = s
      ∧ ∃ ps2, o.frames = payloadFrames ps2
          ∧ o.out ++ (o.buffer ++ ps2.flatten) = buf ++ ps.flatten := by
  induction ps generalizing buf with
  | nil =>
    have hpf0 : payloadFrames [] = ([] : List (Except Err Frame)) := rfl
    rw [hpf0] at h
    by_cases h2 : 0 < (buf.take blen).length ∨ (buf.take blen).length = blen
    · rw [Read_ret pf now blen deadline [] s buf _ _ _ _
        (preRecv_finished now blen deadline s buf hc hd (by simp [ha]) h2)] at h
      cases h
      refine ⟨rfl, rfl, [], rfl, ?_⟩
      rw [List.flatten_nil, List.append_nil, List.append_nil, List.take_append_drop]
    · rw [Read_blocked pf now blen deadline s buf
        (preRecv_recv_gen now blen deadline s buf hc hd (by simp [ha]) h2)] at h
      exact Option.noConfusion h
  | cons p ps ih =>
    by_cases h2 : 0 < (buf.take blen).length ∨ (buf.take blen).length = blen
    · rw [Read_ret pf now blen deadline (payloadFrames (p :: ps)) s buf _ _ _ _
        (preRecv_finished now blen deadline s buf hc hd (by simp [ha]) h2)] at h
      cases h
      refine ⟨rfl, rfl, p :: ps, rfl, ?_⟩
      rw [← List.append_assoc, List.take_append_drop]
    · have hpf : payloadFrames (p :: ps)
          = .ok ⟨some p, none⟩ :: payloadFrames ps := rfl
      have hrecv := preRecv_recv_gen now blen deadline s buf hc hd (by simp [ha]) h2
      obtain ⟨-, -, hbuf, -, -⟩ := preRecv_recv_inv hrecv
      rw [hpf, Read_recv_ok pf now blen deadline ⟨some p, none⟩
        (payloadFrames ps) s buf hrecv] at h
      have hh1 : (handleFrame pf s (buf.drop blen) ⟨some p, none⟩).1 = s := by
        simp [handleFrame]
      have hh2 : (handleFrame pf s (buf.drop blen) ⟨some p, none⟩).2
          = buf.drop blen ++ p := by
        simp [handleFrame, ha]
      rw [hh1, hh2] at h
      obtain ⟨he, hs, ps2, hfr, heq⟩ := ih (buf.drop blen ++ p) h
      refine ⟨he, hs, ps2, hfr, ?_⟩
      rw [heq, hbuf]
      simp

/-- Conservation across a sequence of `Read` calls over a payload-only
script. -/
theorem runReads_payload_conserve (blens : List Nat) (pf : ProcFlag) (now : Nat)
    (deadline : Option Nat) (s : StreamState)
    (hc : s.closed = false) (ha : s.allowRead = true)
    (hd : deadlineExpired deadline now = false) :
    ∀ (ps : List (List Nat)) (buf : List Nat) (outs : List (List Nat))
      (fr2 : List (Except Err Frame)) (s2 : StreamState) (buf2 : List Nat),
      runReads pf now deadline blens (payloadFrames ps) s buf
        = some (outs, fr2, s2, buf2) →
      s2 = s ∧ ∃ ps2, fr2 = payloadFrames ps2
        ∧ outs.flatten ++ (buf2 ++ ps2.flatten) = buf ++ ps.flatten := by
  induction blens with
  | nil =>
    intro ps buf outs fr2 s2 buf2 h
    rw [runReads_nil] at h
    cases h
    exact ⟨rfl, ps, rfl, by simp⟩
  | cons blen blens ih =>
    intro ps buf outs fr2 s2 buf2 h
    rw [runReads_cons] at h
    cases hr : Read pf now blen deadline (payloadFrames ps) s buf with
    | none => rw [hr] at h; exact Option.noConfusion h
    | some o =>
      rw [hr] at h
      dsimp only at h
      obtain ⟨he, hs, ps1, hfr, heq⟩ :=
        Read_payload_conserve ps pf now blen deadline s buf o hc ha hd hr
      rw [hfr, hs] at h
      cases hrr : runReads pf now deadline blens (payloadFrames ps1) s o.buffer with
      | none => rw [hrr] at h; exact Option.noConfusion h
      | some pr =>
        obtain ⟨outs1, fin⟩ := pr
        rw [hrr] at h
        dsimp only at h
        cases h
        obtain ⟨hs2, ps2, hfr2, heq2⟩ := ih ps1 o.buffer outs1 fr2 s2 buf2 hrr
        refine ⟨hs2, ps2, hfr2, ?_⟩
        rw [List.flatten_cons, List.append_assoc, heq2, heq]

/-- C2 (confirmed): for any in-order sequence of payload-bearing frames
P1..Pn and any slicing of the caller's destination buffers, if the stream
stays open for reading with no deadline expiry and every call returns
(ending with buffer and script drained), the concatenation of the bytes
returned by the successive `Read` calls is exactly P1++...++Pn. -/
theorem C2_ordering (pf : ProcFlag) (now : Nat) (deadline : Option Nat)
    (ps : List (List Nat)) (blens : List Nat) (s s2 : StreamState)
    (outs : List (List Nat))
    (hc : s.closed = false) (ha : s.allowRead = true)
    (hd : deadlineExpired deadline now = false)
    (h : runReads pf now deadline blens (payloadFrames ps) s []
      = some (outs, [], s2, [])) :
    outs.flatten = ps.flatten := by
  obtain ⟨-, ps2, hfr, heq⟩ :=
    runReads_payload_conserve blens pf now deadline s hc ha hd ps [] outs [] s2 [] h
  have hps2 : ps2 = [] := by
    cases ps2 with
    | nil => rfl
    | cons q qs => simp [payloadFrames] at hfr
  subst hps2
  simpa using heq

/-- C2 witness: payloads [1,2,3] and [4,5] read through destinations of
sizes 2, 2, 1, 1 come out as [1,2], [3], [4], [5] — the same bytes in the
same order. -/
theorem C2_witness :
    ([[1, 2], [3], [4], [5]] : List (List Nat)).flatten
      = ([[1, 2, 3], [4, 5]] : List (List Nat)).flatten :=
  C2_ordering (fun s _ => s) 0 none [[1, 2, 3], [4, 5]] [2, 2, 1, 1]
    ⟨false, true, none⟩ ⟨false, true, none⟩ [[1, 2], [3], [4], [5]]
    rfl rfl rfl (by decide)

/-! ### Claim C8 -/

/-- C8 (confirmed): across any number of `CloseRead` calls from a fresh
reader, at most one STOP_SENDING send is performed; after a successful first
call a second call returns success without sending again; and a call on a
fully closed stream returns success immediately without consuming the
latch. -/
theorem C8_close_read_once (script : List (Option Err × Bool)) (s : StreamState) :
    (runCloseReads script ⟨s, false, 0, false⟩).2.sends ≤ 1
    ∧ (∀ (b1 b2 : Bool) (c : CloseState), c.stream.closed = false → c.onceDone = false →
        (closeRead none b1 c).1 = none
        ∧ (closeRead none b2 (closeRead none b1 c).2).1 = none
        ∧ (closeRead none b2 (closeRead none b1 c).2).2.sends = c.sends + 1)
    ∧ (∀ (se : Option Err) (fc : Bool) (c : CloseState), c.stream.closed = true →
        closeRead se fc c = (none, c)) := by
  refine ⟨?_, ?_, ?_⟩
  · rcases runCloseReads_latch script ⟨s, false, 0, false⟩ with ⟨hs, -⟩ | ⟨-, hs, -⟩
    · rw [hs]
      exact Nat.zero_le 1
    · rw [hs]
  · intro b1 b2 c hc hnd
    rw [closeRead_sendOk b1 c hc hnd, closeRead_noop none b2 _ (Or.inr rfl)]
    exact ⟨rfl, rfl, rfl⟩
  · intro se fc c hc
    exact closeRead_noop se fc c (Or.inl hc)

/-- C8 witness: concrete instance of `C8_close_read_once`. -/
theorem C8_witness :
    (runCloseReads [(none, false), (some (Err.other 2), true), (none, true)]
        ⟨⟨false, true, none⟩, false, 0, false⟩).2.sends ≤ 1
    ∧ closeRead none false ⟨⟨true, true, none⟩, false, 0, false⟩
        = (none, ⟨⟨true, true, none⟩, false, 0, false⟩) := by
  have h := C8_close_read_once [(none, false), (some (Err.other 2), true), (none, true)]
    ⟨false, true, none⟩
  exact ⟨h.1, h.2.2 none false ⟨⟨true, true, none⟩, false, 0, false⟩ rfl⟩

/-! ### Claim C9 -/

/-- C9 (counterexample): after a `CloseRead` whose send failed, a later call
— even one whose send would succeed and whose transition would fully close
the stream — changes nothing: the `sync.Once` latch was consumed, so no
retry of the send or of the transition ever happens, refuting "a future
CloseRead call may retry the send and transition". -/
theorem C9_counterexample :
    closeRead none true ((closeRead (some (Err.other 7)) false
        ⟨⟨false, true, none⟩, false, 0, false⟩).2)
      = (none, (closeRead (some (Err.other 7)) false
          ⟨⟨false, true, none⟩, false, 0, false⟩).2)
    ∧ (closeRead (some (Err.other 7)) false
        ⟨⟨false, true, none⟩, false, 0, false⟩).2.readClosedApplied = false
    ∧ (closeRead none true ((closeRead (some (Err.other 7)) false
        ⟨⟨false, true, none⟩, false, 0, false⟩).2)).2.sends = 1 :=
  ⟨by decide, by decide, by decide⟩

/-- C9 (amended): when the STOP_SENDING send fails, `CloseRead` returns the
error wrapped with context and does not apply the local read-closed
transition — but the one-shot latch is consumed, so every future `CloseRead`
call returns success immediately without retrying the send or the
transition. -/
theorem C9_send_failure (e : Err) (fc : Bool) (c : CloseState)
    (hc : c.stream.closed = false) (hnd : c.onceDone = false) :
    (closeRead (some e) fc c).1 = some (.closeReadWrap e)
    ∧ (closeRead (some e) fc c).2.readClosedApplied = c.readClosedApplied
    ∧ (closeRead (some e) fc c).2.stream = c.stream
    ∧ (closeRead (some e) fc c).2.sends = c.sends + 1
    ∧ ∀ (se2 : Option Err) (fc2 : Bool),
        closeRead se2 fc2 (closeRead (some e) fc c).2
          = (none, (closeRead (some e) fc c).2) := by
  rw [closeRead_sendFail e fc c hc hnd]
  refine ⟨rfl, rfl, rfl, rfl, ?_⟩
  intro se2 fc2
  exact closeRead_noop se2 fc2 _ (Or.inr rfl)

/-- C9 witness: concrete instance of `C9_send_failure`. -/
theorem C9_witness :
    (closeRead (some (Err.other 5)) true ⟨⟨false, true, none⟩, false, 2, false⟩).1
      = some (.closeReadWrap (Err.other 5))
    ∧ closeRead none false ((closeRead (some (Err.other 5)) true
        ⟨⟨false, true, none⟩, false, 2, false⟩).2)
      = (none, (closeRead (some (Err.other 5)) true
          ⟨⟨false, true, none⟩, false, 2, false⟩).2) := by
  have h := C9_send_failure (Err.other 5) true ⟨⟨false, true, none⟩, false, 2, false⟩ rfl rfl
  exact ⟨h.1, h.2.2.2.2 none false⟩

end LibP2PWebRTC
